import Mathlib

/-!
Verification of the rotation-lock kernel module (`src/kernel/rotation.c`).

The module grants read/write access to sub-ranges of a circular 360-degree
domain.  We give a shallow embedding of its state (the orientation cell, the
360-slot counter table `locks`, the held-lock list `locks_info`, the id
counter `next_lock_id`) and of the syscalls `set_orientation`,
`rotation_lock` and `rotation_unlock`, plus a small-step machine that splits
a blocking `rotation_lock` call into its observable phases so that sequences
of concurrent calls can be replayed as interleavings.
-/

namespace Rotation

/-- Linux errno value for invalid argument; the syscalls return `-EINVAL`. -/
def EINVAL : Int := 22

/-- Linux errno value for permission denied; `rotation_unlock` returns `-EPERM`. -/
def EPERM : Int := 1

/-- Modelled from the spec: `linux/rotation.h` is not under `src/`; it defines the
two access-kind constants.  The spec only requires `kind ∈ \x7bRead, Write\x7d`
with the two kinds distinct, so we use the conventional values 0 and 1. -/
def ROT_READ : Int := 0

/-- Modelled from the spec: the write access kind, see `ROT_READ`. -/
def ROT_WRITE : Int := 1

/-- One slot of the 360-entry counter table `locks` (C struct `reader_writer_lock`). -/
structure reader_writer_lock where
  active_readers : Int
  active_writers : Int
  waiting_writers : Int
deriving DecidableEq, Repr

/-- One held lock (C struct `lock_info`): id, owner pid, inclusive degree
bounds `low`/`high`, and access type. -/
structure lock_info where
  id : Int
  pid : Int
  low : Int
  high : Int
  type : Int
deriving DecidableEq, Repr

/-- A `rotation_lock` invocation that is suspended in the availability loop:
its already-constructed `lock_info` (the id was assigned on entry) and the
local `writer_waiting` flag recording whether it incremented
`waiting_writers` across its range. -/
structure pending_request where
  info : lock_info
  writer_waiting : Bool
deriving DecidableEq, Repr

/-- The module's global state: `device_orientation`, the counter table
`locks`, the held-lock list `locks_info`, suspended `rotation_lock` calls,
the id counter `next_lock_id` and the `locks_initialized` flag. -/
structure RotState where
  device_orientation : Int
  locks : Int → reader_writer_lock
  locks_info : List lock_info
  pending : List pending_request
  next_lock_id : Int
  locks_initialized : Bool

/-- Observable side effects we track: storing a new orientation, and waking
all waiters on the `requests` wait queue (`wake_up_all`). -/
inductive Effect where
  | storeOrientation (degree : Int)
  | wakeAll
deriving DecidableEq, Repr

/-- The indices visited by the C loop idiom `for (int i = low; i <= high; i++)`
(used by every counter walk in rotation.c).  Empty when `low > high`. -/
def loopRange (low high : Int) : List Int :=
  (List.range (high + 1 - low).toNat).map (fun (k : Nat) => low + (k : Int))

/-- Point update of the counter table at index `i`. -/
def updAt (f : Int → reader_writer_lock) (i : Int)
    (g : reader_writer_lock → reader_writer_lock) : Int → reader_writer_lock :=
  fun d => if d = i then g (f d) else f d

/-- Apply `g` to every slot the C loop `for (i = low; i <= high; i++)` visits. -/
def bumpLoop (low high : Int) (g : reader_writer_lock → reader_writer_lock)
    (f : Int → reader_writer_lock) : Int → reader_writer_lock :=
  (loopRange low high).foldl (fun acc i => updAt acc i g) f

/-- rotation.c lines 167-173: wrap-aware containment of the current
orientation in `[low, high]`. -/
def orientation_in_range (s : RotState) (low high : Int) : Bool :=
  if low ≤ high then
    decide (low ≤ s.device_orientation) && decide (s.device_orientation ≤ high)
  else
    decide (low ≤ s.device_orientation) || decide (s.device_orientation ≤ high)

/-- rotation.c lines 175-201: a lock request is available when the
orientation is in range and the loop `for (i = low; i <= high; i++)` finds
no conflicting counter (readers conflict with active or waiting writers;
writers conflict with active readers or active writers). -/
def lock_available (s : RotState) (low high type : Int) : Bool :=
  if !orientation_in_range s low high then
    false
  else if type = ROT_READ then
    (loopRange low high).all fun i =>
      !(decide (0 < (s.locks i).active_writers) ||
        decide (0 < (s.locks i).waiting_writers))
  else
    (loopRange low high).all fun i =>
      !(decide (0 < (s.locks i).active_readers) ||
        decide (0 < (s.locks i).active_writers))

/-- rotation.c lines 203-213: zero every slot once; a second call is a no-op. -/
def locks_init (s : RotState) : RotState :=
  if s.locks_initialized then s
  else { s with locks := fun _ => ⟨0, 0, 0⟩, locks_initialized := true }

/-- Modelled from the spec: `find_lock` is declared at rotation.c line 42
("Find a lock by ID... The lock, or NULL if not found") but its definition is
not under `src/`.  Per that doc comment and the spec's LockRegistry contract
(`find(id) -> Lock?`) it is lookup by id in the held-lock list. -/
def find_lock (s : RotState) (id : Int) : Option lock_info :=
  s.locks_info.find? fun l => l.id == id

/-- rotation.c lines 15-25, `sys_set_orientation`: reject degrees outside
`[0, 360)`, otherwise store the degree.  The returned effect list records
exactly the observable actions the function body performs (a store; notably
no wake of the `requests` wait queue). -/
def set_orientation (s : RotState) (degree : Int) : Int × RotState × List Effect :=
  if degree < 0 ∨ 360 ≤ degree then
    (-EINVAL, s, [])
  else
    (0, { s with device_orientation := degree }, [Effect.storeOrientation degree])

/-- Counter updates applied per visited slot by acquire (increment) paths. -/
def incActive (type : Int) (rw : reader_writer_lock) : reader_writer_lock :=
  if type = ROT_READ then { rw with active_readers := rw.active_readers + 1 }
  else { rw with active_writers := rw.active_writers + 1 }

/-- Counter updates applied per visited slot by the release (decrement) path. -/
def decActive (type : Int) (rw : reader_writer_lock) : reader_writer_lock :=
  if type = ROT_READ then { rw with active_readers := rw.active_readers - 1 }
  else { rw with active_writers := rw.active_writers - 1 }

/-- `waiting_writers++` on one slot (rotation.c line 91). -/
def incWaiting (rw : reader_writer_lock) : reader_writer_lock :=
  { rw with waiting_writers := rw.waiting_writers + 1 }

/-- `waiting_writers--` on one slot (rotation.c line 108). -/
def decWaiting (rw : reader_writer_lock) : reader_writer_lock :=
  { rw with waiting_writers := rw.waiting_writers - 1 }

/-- rotation.c lines 131-165, `sys_rotation_unlock`: `-EINVAL` for a negative
or unknown id, `-EPERM` when the caller is not the owner; otherwise remove
the lock from the list, decrement its counters over
`for (i = low; i <= high; i++)`, and `wake_up_all` the wait queue. -/
def rotation_unlock (s : RotState) (id pid : Int) : Int × RotState × List Effect :=
  if id < 0 then
    (-EINVAL, s, [])
  else
    match find_lock s id with
    | none => (-EINVAL, s, [])
    | some lock =>
      if lock.pid ≠ pid then
        (-EPERM, s, [])
      else
        (0,
         { s with
            locks_info := s.locks_info.erase lock,
            locks := bumpLoop lock.low lock.high (decActive lock.type) s.locks },
         [Effect.wakeAll])

/-- Outcome of a `rotation_lock` call in the sequential embedding: either the
syscall returns (`ret`) or the caller suspends in the availability loop
(`blocked`), in the state reached so far. -/
inductive LockOutcome where
  | ret (retval : Int) (s : RotState)
  | blocked (s : RotState)

/-- rotation.c lines 59-126, `sys_rotation_lock`: initialize the table,
validate the arguments, assign the next id, then either grant immediately
(add to `locks_info`, increment the active counters over the loop range) or
suspend — a suspending writer first increments `waiting_writers` over its
loop range and sets its `writer_waiting` flag. -/
def rotation_lock (s0 : RotState) (low high type pid : Int) : LockOutcome :=
  let s := locks_init s0
  if low < 0 ∨ 360 ≤ low ∨ high < 0 ∨ 360 ≤ high ∨
      (type ≠ ROT_READ ∧ type ≠ ROT_WRITE) then
    .ret (-EINVAL) s
  else
    let lock : lock_info := ⟨s.next_lock_id, pid, low, high, type⟩
    let s1 := { s with next_lock_id := s.next_lock_id + 1 }
    if lock_available s1 low high type then
      .ret lock.id
        { s1 with
            locks_info := lock :: s1.locks_info,
            locks := bumpLoop low high (incActive type) s1.locks }
    else
      let s2 :=
        if type = ROT_WRITE then
          { s1 with locks := bumpLoop low high incWaiting s1.locks }
        else s1
      .blocked { s2 with pending := s2.pending ++ [⟨lock, type = ROT_WRITE⟩] }

/-- The state of the freshly loaded module: C static storage is
zero-initialized, `device_orientation = 0`, no locks, id counter 0. -/
def initState : RotState :=
  { device_orientation := 0
    locks := fun _ => ⟨0, 0, 0⟩
    locks_info := []
    pending := []
    next_lock_id := 0
    locks_initialized := false }

/-- An observable phase of one syscall in an interleaved execution.  A
blocking `rotation_lock` call is split into its entry (validation and id
assignment), its writer-priority registration inside the wait loop, and the
moment the availability loop exits and the lock is granted. -/
inductive Op where
  | setOrient (degree : Int)
  | lockEnter (low high type pid : Int)
  | lockRegisterWait (id : Int)
  | lockGrant (id : Int)
  | unlock (id pid : Int)

/-- One interleaved phase.  Returns the successor state and, for a
`lockEnter` phase that passes validation, the lock id that call was issued
(`lock->id = next_lock_id++`, rotation.c line 70).  Phases whose guard fails
(invalid arguments, unknown id, not yet available) leave the state
unchanged, like the corresponding syscall paths. -/
def step (s : RotState) : Op → RotState × Option Int
  | .setOrient degree => ((set_orientation s degree).2.1, none)
  | .lockEnter low high type pid =>
    let s1 := locks_init s
    if low < 0 ∨ 360 ≤ low ∨ high < 0 ∨ 360 ≤ high ∨
        (type ≠ ROT_READ ∧ type ≠ ROT_WRITE) then
      (s1, none)
    else
      ({ s1 with
          pending := s1.pending ++ [⟨⟨s1.next_lock_id, pid, low, high, type⟩, false⟩],
          next_lock_id := s1.next_lock_id + 1 },
       some s1.next_lock_id)
  | .lockRegisterWait id =>
    match s.pending.find? (fun p => p.info.id == id) with
    | none => (s, none)
    | some p =>
      if p.info.type = ROT_WRITE ∧ p.writer_waiting = false then
        ({ s with
            locks := bumpLoop p.info.low p.info.high incWaiting s.locks,
            pending := s.pending.map fun q =>
              if q.info.id == id then { q with writer_waiting := true } else q },
         none)
      else (s, none)
  | .lockGrant id =>
    match s.pending.find? (fun p => p.info.id == id) with
    | none => (s, none)
    | some p =>
      if lock_available s p.info.low p.info.high p.info.type then
        let locks1 :=
          if p.writer_waiting then
            bumpLoop p.info.low p.info.high decWaiting s.locks
          else s.locks
        ({ s with
            pending := s.pending.erase p,
            locks_info := p.info :: s.locks_info,
            locks := bumpLoop p.info.low p.info.high (incActive p.info.type) locks1 },
         none)
      else (s, none)
  | .unlock id pid => ((rotation_unlock s id pid).2.1, none)

/-- Replay a sequence of phases from `s`, collecting the issued lock ids in
issuance order. -/
def run (s : RotState) : List Op → RotState × List Int
  | [] => (s, [])
  | op :: ops =>
    let r := step s op
    let rest := run r.1 ops
    (rest.1, match r.2 with | some i => i :: rest.2 | none => rest.2)

/-- The spec's wrap-aware notion of the degrees a range covers: `low..high`
when `low ≤ high`, and `low..359` together with `0..high` when it wraps. -/
def coversDeg (low high d : Int) : Bool :=
  if low ≤ high then decide (low ≤ d) && decide (d ≤ high)
  else decide (low ≤ d) || decide (d ≤ high)

/-- The availability predicate exactly as the spec states it: orientation in
range, and the conflict counters are zero at every degree the (possibly
wrapping) range covers. -/
def lock_available_spec (s : RotState) (low high type : Int) : Prop :=
  orientation_in_range s low high = true ∧
  ∀ d : Int, coversDeg low high d = true →
    if type = ROT_READ then
      (s.locks d).active_writers = 0 ∧ (s.locks d).waiting_writers = 0
    else
      (s.locks d).active_readers = 0 ∧ (s.locks d).active_writers = 0

/-! ### Basic lemmas about the loop idiom and the counter table -/

theorem mem_loopRange {low high d : Int} :
    d ∈ loopRange low high ↔ low ≤ d ∧ d ≤ high := by
  simp only [loopRange, List.mem_map, List.mem_range]
  constructor
  · rintro ⟨k, hk, rfl⟩
    omega
  · intro h
    exact ⟨(d - low).toNat, by omega, by omega⟩

theorem nodup_loopRange (low high : Int) : (loopRange low high).Nodup := by
  unfold loopRange
  refine List.Nodup.map ?_ (List.nodup_range _)
  intro a b h
  have h2 : low + (a : Int) = low + (b : Int) := h
  omega

theorem foldl_updAt (g : reader_writer_lock → reader_writer_lock) :
    ∀ (l : List Int), l.Nodup → ∀ (f : Int → reader_writer_lock) (d : Int),
      (l.foldl (fun acc i => updAt acc i g) f) d = if d ∈ l then g (f d) else f d := by
  intro l
  induction l with
  | nil => intro _ f d; simp
  | cons a t ih =>
    intro hnd f d
    simp only [List.foldl_cons]
    rw [ih hnd.of_cons]
    by_cases hd : d = a
    · subst hd
      have hdt : d ∉ t := (List.nodup_cons.mp hnd).1
      simp [hdt, updAt]
    · simp [updAt, hd]

theorem bumpLoop_apply (low high : Int) (g : reader_writer_lock → reader_writer_lock)
    (f : Int → reader_writer_lock) (d : Int) :
    bumpLoop low high g f d = if low ≤ d ∧ d ≤ high then g (f d) else f d := by
  rw [bumpLoop, foldl_updAt g _ (nodup_loopRange low high)]
  by_cases h : low ≤ d ∧ d ≤ high
  · rw [if_pos (mem_loopRange.mpr h), if_pos h]
  · rw [if_neg (fun hm => h (mem_loopRange.mp hm)), if_neg h]

/-! ### Concrete executions used as test vectors -/

/-- The state a `rotation_lock` call leaves behind, whether it returned or
suspended. -/
def outcomeState : LockOutcome → RotState
  | .ret _ s => s
  | .blocked s => s

/-- The value a `rotation_lock` call returned, or `none` if it suspended. -/
def outcomeRet : LockOutcome → Option Int
  | .ret r _ => some r
  | .blocked _ => none

/-- A wrap-around write acquisition from the initial state: orientation is 0,
which lies in the wrapping range `[350, 10]`, so the request is granted. -/
def wrapAcquire : LockOutcome := rotation_lock initState 350 10 ROT_WRITE 1

/-- Interleaving: grant a write lock on `[350, 10]` to pid 1, then a write
lock on `[0, 10]` to pid 2, both at orientation 0. -/
def twoWritersTrace : List Op :=
  [.lockEnter 350 10 ROT_WRITE 1, .lockGrant 0,
   .lockEnter 0 10 ROT_WRITE 2, .lockGrant 1]

/-- The state after `twoWritersTrace`. -/
def twoWritersState : RotState := (run initState twoWritersTrace).1

/-- The state after granting a write lock on `[0, 10]` to pid 1 at
orientation 0: `active_writers` is 1 on each of the degrees 0..10. -/
def oneWriterState : RotState :=
  (run initState [.lockEnter 0 10 ROT_WRITE 1, .lockGrant 0]).1

/-! ### Claim theorems -/

/-- Claim C1 (code bug): the availability test is **not** the spec's
predicate on wrap-around ranges.  In `oneWriterState` (orientation 0, an
active writer on every degree of `[0, 10]`), `lock_available` accepts a read
request on the wrapping range `[350, 10]` even though the covered degree 5
has an active writer: the counter loop `for (i = low; i <= high; i++)` runs
zero times when `low > high`, so the wrapped degrees are never checked. -/
theorem lock_available_wrap_counter_bug :
    lock_available oneWriterState 350 10 ROT_READ = true ∧
    ¬ lock_available_spec oneWriterState 350 10 ROT_READ := by
  refine ⟨by decide, fun h => ?_⟩
  have h5 := h.2 5 (by decide)
  rw [if_pos rfl] at h5
  have hw : (oneWriterState.locks 5).active_writers = 1 := by decide
  omega

/-- Claim C2 (code bug): a successful acquire of the wrap-around range
`[350, 10]` (granted: it returns id 0) increments **no** counter — the
covered degrees 0 and 355 still have all counters at zero afterwards,
because the increment loop `for (i = low; i <= high; i++)` executes zero
iterations when `low > high`. -/
theorem wrap_acquire_increments_nothing :
    outcomeRet wrapAcquire = some 0 ∧
    coversDeg 350 10 0 = true ∧ coversDeg 350 10 355 = true ∧
    ((outcomeState wrapAcquire).locks 0).active_writers = 0 ∧
    ((outcomeState wrapAcquire).locks 355).active_writers = 0 ∧
    ((outcomeState wrapAcquire).locks 0).active_readers = 0 ∧
    ((outcomeState wrapAcquire).locks 355).active_readers = 0 := by
  decide

/-- Claim C3 (code bug): mutual exclusion is violated in a reachable state.
After `twoWritersTrace` (a granted write lock on the wrapping `[350, 10]`,
then a granted write lock on `[0, 10]`, both at orientation 0) two distinct
active write locks both cover degree 0: the wrap-range writer neither
checked nor incremented any counter, so the second writer saw every counter
at zero. -/
theorem two_active_writers_same_degree :
    ∃ l1 ∈ twoWritersState.locks_info, ∃ l2 ∈ twoWritersState.locks_info,
      l1 ≠ l2 ∧ l1.type = ROT_WRITE ∧ l2.type = ROT_WRITE ∧
      coversDeg l1.low l1.high 0 = true ∧ coversDeg l2.low l2.high 0 = true := by
  decide

/-- Claim C4 (code bug): a successful `set_orientation` stores the new value
but performs **no** wake of the `requests` wait queue — its effect trace
never contains `wakeAll` (contrast `rotation_unlock`, whose success path
calls `wake_up_all`), so a blocked acquire whose range newly contains the
orientation is not re-evaluated. -/
theorem set_orientation_performs_no_wake :
    (set_orientation initState 90).1 = 0 ∧
    (set_orientation initState 90).2.1.device_orientation = 90 ∧
    Effect.wakeAll ∉ (set_orientation initState 90).2.2 ∧
    (∀ s degree, Effect.wakeAll ∉ (set_orientation s degree).2.2) ∧
    Effect.wakeAll ∈ (rotation_unlock twoWritersState 0 1).2.2 := by
  refine ⟨by decide, by decide, by decide, fun s degree => ?_, by decide⟩
  unfold set_orientation
  split <;> simp

/-- Claim C9: `set_orientation` succeeds on every degree in `[0, 360)` and
afterwards the stored orientation equals that degree; on every degree
outside `[0, 360)` it returns `-EINVAL` and leaves the state (in particular
the previously stored orientation) unchanged. -/
theorem set_orientation_contract (s : RotState) (degree : Int) :
    (0 ≤ degree ∧ degree < 360 →
      (set_orientation s degree).1 = 0 ∧
      (set_orientation s degree).2.1.device_orientation = degree) ∧
    (degree < 0 ∨ 360 ≤ degree →
      (set_orientation s degree).1 = -EINVAL ∧
      (set_orientation s degree).2.1 = s) := by
  unfold set_orientation
  constructor
  · intro h
    rw [if_neg (by omega)]
    exact ⟨rfl, rfl⟩
  · intro h
    rw [if_pos h]
    exact ⟨rfl, rfl⟩

/-- Witness for C9 at degree 90 (valid) and degree 400 (invalid). -/
theorem set_orientation_contract_witness :
    (set_orientation initState 90).1 = 0 ∧
    (set_orientation initState 90).2.1.device_orientation = 90 ∧
    (set_orientation initState 400).1 = -EINVAL ∧
    (set_orientation initState 400).2.1 = initState := by
  refine ⟨((set_orientation_contract initState 90).1 (by decide)).1,
          ((set_orientation_contract initState 90).1 (by decide)).2,
          ((set_orientation_contract initState 400).2 (by decide)).1,
          ((set_orientation_contract initState 400).2 (by decide)).2⟩

/-- Claim C10: whether it succeeds or fails, `set_orientation` modifies only
the stored orientation: the counter table, the held-lock list, the suspended
requests, the id counter and the initialization flag are all unchanged. -/
theorem set_orientation_frame (s : RotState) (degree : Int) :
    (set_orientation s degree).2.1.locks = s.locks ∧
    (set_orientation s degree).2.1.locks_info = s.locks_info ∧
    (set_orientation s degree).2.1.pending = s.pending ∧
    (set_orientation s degree).2.1.next_lock_id = s.next_lock_id ∧
    (set_orientation s degree).2.1.locks_initialized = s.locks_initialized := by
  unfold set_orientation
  split <;> exact ⟨rfl, rfl, rfl, rfl, rfl⟩

/-- Claim C5: `rotation_unlock` returns `-EINVAL` for a negative id and for
an id with no registered lock, returns `-EPERM` when the stored owner pid
differs from the caller's pid, and in every failure case returns the state
literally unchanged (the lock list and every counter slot are intact). -/
theorem rotation_unlock_error_paths (s : RotState) (id pid : Int) :
    (id < 0 → rotation_unlock s id pid = (-EINVAL, s, [])) ∧
    (0 ≤ id → find_lock s id = none → rotation_unlock s id pid = (-EINVAL, s, [])) ∧
    (∀ l, 0 ≤ id → find_lock s id = some l → l.pid ≠ pid →
      rotation_unlock s id pid = (-EPERM, s, [])) := by
  unfold rotation_unlock
  refine ⟨fun h => ?_, fun h0 hf => ?_, fun l h0 hf hp => ?_⟩
  · rw [if_pos h]
  · rw [if_neg (by omega), hf]
  · rw [if_neg (by omega), hf]
    exact if_pos hp

/-- Witness for C5 on `twoWritersState`: a negative id, an unknown id 99,
and a release of lock 0 (owned by pid 1) attempted by pid 99. -/
theorem rotation_unlock_error_paths_witness :
    rotation_unlock twoWritersState (-1) 1 = (-EINVAL, twoWritersState, []) ∧
    rotation_unlock twoWritersState 99 1 = (-EINVAL, twoWritersState, []) ∧
    rotation_unlock twoWritersState 0 99 = (-EPERM, twoWritersState, []) := by
  refine ⟨(rotation_unlock_error_paths twoWritersState (-1) 1).1 (by decide),
    (rotation_unlock_error_paths twoWritersState 99 1).2.1 (by decide) (by decide),
    (rotation_unlock_error_paths twoWritersState 0 99).2.2
      ⟨0, 1, 350, 10, ROT_WRITE⟩ (by decide) (by decide) (by decide)⟩

/-- A second `locks_init` call is a no-op. -/
theorem locks_init_initialized {s : RotState} (h : s.locks_initialized = true) :
    locks_init s = s := by
  unfold locks_init
  rw [if_pos h]

/-- Claim C6: on an initialized state with a non-negative id counter,
`rotation_lock` returns `-EINVAL` with the state literally unchanged exactly
when a bound is outside `[0, 360)` or the type is neither `ROT_READ` nor
`ROT_WRITE`; moreover any `-EINVAL` return leaves the state unchanged (no id
consumed, no lock added, no counter changed). -/
theorem rotation_lock_invalid_iff (s : RotState) (low high type pid : Int)
    (hinit : s.locks_initialized = true) (hid : 0 ≤ s.next_lock_id) :
    (rotation_lock s low high type pid = LockOutcome.ret (-EINVAL) s ↔
      low < 0 ∨ 360 ≤ low ∨ high < 0 ∨ 360 ≤ high ∨
        (type ≠ ROT_READ ∧ type ≠ ROT_WRITE)) ∧
    ∀ s', rotation_lock s low high type pid = LockOutcome.ret (-EINVAL) s' → s' = s := by
  simp only [rotation_lock, locks_init_initialized hinit]
  constructor
  · constructor
    · intro h
      by_contra hc
      rw [if_neg hc] at h
      split at h
      · injection h with h1 h2
        simp only [EINVAL] at h1
        omega
      · exact LockOutcome.noConfusion h
    · intro h
      rw [if_pos h]
  · intro s' h
    by_cases hc : low < 0 ∨ 360 ≤ low ∨ high < 0 ∨ 360 ≤ high ∨
        (type ≠ ROT_READ ∧ type ≠ ROT_WRITE)
    · rw [if_pos hc] at h
      injection h with h1 h2
      exact h2.symm
    · rw [if_neg hc] at h
      split at h
      · injection h with h1 h2
        simp only [EINVAL] at h1
        omega
      · exact LockOutcome.noConfusion h

/-- The initialized empty state (after the first `locks_init`). -/
def readyState : RotState := locks_init initState

/-- Witness for C6 on the spec's two scenarios: `acquire(400, 10, Read)` and
`acquire(10, 20, 3)` both return `-EINVAL` and leave the state unchanged. -/
theorem rotation_lock_invalid_iff_witness :
    rotation_lock readyState 400 10 ROT_READ 1 = LockOutcome.ret (-EINVAL) readyState ∧
    rotation_lock readyState 10 20 3 1 = LockOutcome.ret (-EINVAL) readyState := by
  refine ⟨(rotation_lock_invalid_iff readyState 400 10 ROT_READ 1
      (by decide) (by decide)).1.mpr (by decide),
    (rotation_lock_invalid_iff readyState 10 20 3 1
      (by decide) (by decide)).1.mpr (by decide)⟩

/-- Increment then decrement of the same kind restores a slot. -/
theorem dec_inc (type : Int) (rw : reader_writer_lock) :
    decActive type (incActive type rw) = rw := by
  cases rw with
  | mk a b c =>
    unfold decActive incActive
    by_cases h : type = ROT_READ <;> simp [h]

/-- The success path of `rotation_unlock` when the released lock is at the
head of the list: the entry is removed and its loop range decremented. -/
theorem rotation_unlock_head (sA : RotState) (lk : lock_info) (tail : List lock_info)
    (pid : Int) (hlist : sA.locks_info = lk :: tail) (hid : 0 ≤ lk.id)
    (howner : lk.pid = pid) :
    rotation_unlock sA lk.id pid =
      (0, { sA with locks_info := tail,
                    locks := bumpLoop lk.low lk.high (decActive lk.type) sA.locks },
       [Effect.wakeAll]) := by
  unfold rotation_unlock
  rw [if_neg (by omega)]
  have hfind : find_lock sA lk.id = some lk := by
    unfold find_lock
    rw [hlist]
    exact List.find?_cons_of_pos _ (by simp)
  rw [hfind]
  dsimp only
  rw [if_neg (by simp [howner]), hlist, List.erase_cons_head]

/-- Lookup misses when no registered lock carries the id. -/
theorem find_lock_none (sA : RotState) (id : Int)
    (h : ∀ l ∈ sA.locks_info, l.id ≠ id) : find_lock sA id = none := by
  unfold find_lock
  exact List.find?_eq_none.mpr fun l hl => by simp [h l hl]

/-- Claim C7: from any initialized state whose registered ids are below the
id counter, an immediately-granted acquire returns the current counter value
as id, a release of that id by the same pid succeeds, restores every counter
slot to its pre-acquire value and the lock list to its pre-acquire contents,
and a second release of the same id returns `-EINVAL`. -/
theorem acquire_release_roundtrip (s : RotState) (low high type pid : Int)
    (hinit : s.locks_initialized = true)
    (hid0 : 0 ≤ s.next_lock_id)
    (hfresh : ∀ l ∈ s.locks_info, l.id < s.next_lock_id)
    (hlow1 : 0 ≤ low) (hlow2 : low < 360) (hhigh1 : 0 ≤ high) (hhigh2 : high < 360)
    (htype : type = ROT_READ ∨ type = ROT_WRITE)
    (havail : lock_available s low high type = true) :
    ∃ s1, rotation_lock s low high type pid = LockOutcome.ret s.next_lock_id s1 ∧
      ∃ s2, rotation_unlock s1 s.next_lock_id pid = (0, s2, [Effect.wakeAll]) ∧
        s2.locks_info = s.locks_info ∧
        (∀ d, s2.locks d = s.locks d) ∧
        (rotation_unlock s2 s.next_lock_id pid).1 = -EINVAL := by
  have hvalidn : ¬(low < 0 ∨ 360 ≤ low ∨ high < 0 ∨ 360 ≤ high ∨
      (type ≠ ROT_READ ∧ type ≠ ROT_WRITE)) := by
    rcases htype with rfl | rfl <;> simp <;> omega
  refine ⟨{ s with
              next_lock_id := s.next_lock_id + 1,
              locks_info := ⟨s.next_lock_id, pid, low, high, type⟩ :: s.locks_info,
              locks := bumpLoop low high (incActive type) s.locks }, ?_, ?_⟩
  · simp only [rotation_lock, locks_init_initialized hinit]
    have havail2 : lock_available { s with next_lock_id := s.next_lock_id + 1 }
        low high type = true := havail
    rw [if_neg hvalidn, if_pos havail2]
  · have hrel := rotation_unlock_head
      { s with
          next_lock_id := s.next_lock_id + 1,
          locks_info := ⟨s.next_lock_id, pid, low, high, type⟩ :: s.locks_info,
          locks := bumpLoop low high (incActive type) s.locks }
      ⟨s.next_lock_id, pid, low, high, type⟩ s.locks_info pid rfl hid0 rfl
    refine ⟨_, hrel, rfl, fun d => ?_, ?_⟩
    · show bumpLoop low high (decActive type)
        (bumpLoop low high (incActive type) s.locks) d = s.locks d
      rw [bumpLoop_apply, bumpLoop_apply]
      by_cases hc : low ≤ d ∧ d ≤ high
      · rw [if_pos hc, if_pos hc, dec_inc]
      · rw [if_neg hc, if_neg hc]
    · unfold rotation_unlock
      rw [if_neg (by omega)]
      have hnone : find_lock { s with
          next_lock_id := s.next_lock_id + 1,
          locks_info := s.locks_info,
          locks := bumpLoop low high (decActive type)
            (bumpLoop low high (incActive type) s.locks) } s.next_lock_id = none := by
        apply find_lock_none
        intro l hl
        exact fun he => absurd he (by have := hfresh l hl; omega)
      rw [hnone]

/-- Witness for C7: acquire `[0, 10]` read from the initialized empty state
and release it again. -/
theorem acquire_release_roundtrip_witness :
    ∃ s1, rotation_lock readyState 0 10 ROT_READ 1 =
        LockOutcome.ret readyState.next_lock_id s1 ∧
      ∃ s2, rotation_unlock s1 readyState.next_lock_id 1 = (0, s2, [Effect.wakeAll]) ∧
        s2.locks_info = readyState.locks_info ∧
        (∀ d, s2.locks d = readyState.locks d) ∧
        (rotation_unlock s2 readyState.next_lock_id 1).1 = -EINVAL :=
  acquire_release_roundtrip readyState 0 10 ROT_READ 1 (by decide) (by decide)
    (by decide) (by decide) (by decide) (by decide) (by decide) (Or.inl rfl) (by decide)

/-! ### Id uniqueness and monotonicity -/

/-- Every id currently recorded in the module: ids of granted locks and ids
already assigned to suspended requests. -/
def allIds (s : RotState) : List Int :=
  s.locks_info.map (fun l => l.id) ++ s.pending.map (fun p => p.info.id)

/-- The id bookkeeping invariant: recorded ids are pairwise distinct and all
below the id counter. -/
def IdInv (s : RotState) : Prop :=
  (allIds s).Nodup ∧ ∀ i ∈ allIds s, i < s.next_lock_id

theorem allIds_locks_init (s : RotState) : allIds (locks_init s) = allIds s := by
  unfold locks_init
  split <;> rfl

theorem next_locks_init (s : RotState) :
    (locks_init s).next_lock_id = s.next_lock_id := by
  unfold locks_init
  split <;> rfl

/-- `rotation_unlock` either leaves the state unchanged (failure paths) or
removes the found lock and decrements its loop range. -/
theorem rotation_unlock_state_cases (s : RotState) (id pid : Int) :
    (rotation_unlock s id pid).2.1 = s ∨
    ∃ lk, find_lock s id = some lk ∧
      (rotation_unlock s id pid).2.1 =
        { s with locks_info := s.locks_info.erase lk,
                 locks := bumpLoop lk.low lk.high (decActive lk.type) s.locks } := by
  unfold rotation_unlock
  split
  · exact Or.inl rfl
  · split
    · exact Or.inl rfl
    · next lk heq =>
      split
      · exact Or.inl rfl
      · exact Or.inr ⟨lk, heq, rfl⟩

theorem step_next_mono (s : RotState) (op : Op) :
    s.next_lock_id ≤ (step s op).1.next_lock_id := by
  cases op with
  | setOrient degree =>
    show (set_orientation s degree).2.1.next_lock_id ≥ s.next_lock_id
    unfold set_orientation
    split <;> exact le_refl _
  | lockEnter low high type pid =>
    simp only [step]
    split
    · rw [next_locks_init]
    · dsimp only
      rw [next_locks_init]
      omega
  | lockRegisterWait id =>
    simp only [step]
    split
    · exact le_refl _
    · split <;> exact le_refl _
  | lockGrant id =>
    simp only [step]
    split
    · exact le_refl _
    · split <;> exact le_refl _
  | unlock id pid =>
    show s.next_lock_id ≤ (rotation_unlock s id pid).2.1.next_lock_id
    rcases rotation_unlock_state_cases s id pid with h | ⟨lk, _, h⟩ <;> rw [h]

theorem locks_init_locks_info (s : RotState) :
    (locks_init s).locks_info = s.locks_info := by
  unfold locks_init
  split <;> rfl

theorem locks_init_pending (s : RotState) :
    (locks_init s).pending = s.pending := by
  unfold locks_init
  split <;> rfl

theorem step_IdInv (s : RotState) (op : Op) (h : IdInv s) : IdInv (step s op).1 := by
  obtain ⟨hnd, hlt⟩ := h
  cases op with
  | setOrient degree =>
    show IdInv (set_orientation s degree).2.1
    unfold set_orientation
    split
    · exact ⟨hnd, hlt⟩
    · exact ⟨hnd, hlt⟩
  | lockEnter low high type pid =>
    simp only [step]
    split
    · rw [IdInv, allIds_locks_init, next_locks_init]
      exact ⟨hnd, hlt⟩
    · dsimp only
      unfold IdInv allIds
      simp only [locks_init_locks_info, locks_init_pending, next_locks_init,
        List.map_append, List.map_cons, List.map_nil]
      have hperm : List.Perm
          (s.locks_info.map (fun l => l.id) ++
            (s.pending.map (fun p => p.info.id) ++ [s.next_lock_id]))
          (s.next_lock_id :: allIds s) :=
        ((List.perm_append_singleton s.next_lock_id
            (s.pending.map (fun p => p.info.id))).append_left
          (s.locks_info.map (fun l => l.id))).trans List.perm_middle
      have hnmem : s.next_lock_id ∉ allIds s := fun hm => by
        have := hlt _ hm
        omega
      constructor
      · exact hperm.nodup_iff.mpr (List.nodup_cons.mpr ⟨hnmem, hnd⟩)
      · intro i hi
        rcases List.mem_cons.mp (hperm.mem_iff.mp hi) with hi1 | hi2
        · omega
        · have := hlt _ hi2
          omega
  | lockRegisterWait id =>
    simp only [step]
    split
    · exact ⟨hnd, hlt⟩
    · split
      · dsimp only
        unfold IdInv allIds
        have hmap : (s.pending.map fun q =>
              if q.info.id == id then { q with writer_waiting := true } else q).map
            (fun p => p.info.id) = s.pending.map (fun p => p.info.id) := by
          rw [List.map_map]
          refine List.map_congr_left fun q _ => ?_
          dsimp only [Function.comp]
          split <;> rfl
        rw [hmap]
        exact ⟨hnd, hlt⟩
      · exact ⟨hnd, hlt⟩
  | lockGrant id =>
    simp only [step]
    split
    · exact ⟨hnd, hlt⟩
    · next p heq =>
      split
      · dsimp only
        unfold IdInv allIds
        have hp : p ∈ s.pending := List.mem_of_find?_eq_some heq
        have hperm : List.Perm (allIds s)
            (p.info.id :: (s.locks_info.map (fun l => l.id) ++
              (s.pending.erase p).map (fun q => q.info.id))) := by
          have h1 : List.Perm (s.pending.map (fun q => q.info.id))
              (p.info.id :: (s.pending.erase p).map (fun q => q.info.id)) :=
            (List.perm_cons_erase hp).map _
          exact ((h1.append_left (s.locks_info.map (fun l => l.id))).trans
            List.perm_middle)
        constructor
        · simp only [List.map_cons, List.cons_append]
          exact hperm.nodup_iff.mp hnd
        · intro i hi
          simp only [List.map_cons, List.cons_append] at hi
          exact hlt i (hperm.mem_iff.mpr hi)
      · exact ⟨hnd, hlt⟩
  | unlock id pid =>
    show IdInv (rotation_unlock s id pid).2.1
    rcases rotation_unlock_state_cases s id pid with hcase | ⟨lk, _, hcase⟩ <;> rw [hcase]
    · exact ⟨hnd, hlt⟩
    · unfold IdInv allIds
      have hsub : List.Sublist
          ((s.locks_info.erase lk).map (fun l => l.id) ++
            s.pending.map (fun p => p.info.id))
          (s.locks_info.map (fun l => l.id) ++ s.pending.map (fun p => p.info.id)) :=
        ((List.erase_sublist lk s.locks_info).map _).append_right _
      exact ⟨hnd.sublist hsub, fun i hi => hlt i (hsub.subset hi)⟩

theorem step_issued (s : RotState) (op : Op) (i : Int)
    (h : (step s op).2 = some i) :
    i = s.next_lock_id ∧ (step s op).1.next_lock_id = s.next_lock_id + 1 := by
  cases op with
  | setOrient degree => exact Option.noConfusion h
  | lockEnter low high type pid =>
    simp only [step] at h ⊢
    by_cases hc : low < 0 ∨ 360 ≤ low ∨ high < 0 ∨ 360 ≤ high ∨
        (type ≠ ROT_READ ∧ type ≠ ROT_WRITE)
    · rw [if_pos hc] at h
      exact Option.noConfusion h
    · rw [if_neg hc] at h
      rw [if_neg hc]
      rw [Option.some_inj] at h
      rw [next_locks_init] at h
      refine ⟨h.symm, ?_⟩
      dsimp only
      rw [next_locks_init]
  | lockRegisterWait id =>
    simp only [step] at h
    split at h
    · exact Option.noConfusion h
    · split at h <;> exact Option.noConfusion h
  | lockGrant id =>
    simp only [step] at h
    split at h
    · exact Option.noConfusion h
    · split at h <;> exact Option.noConfusion h
  | unlock id pid => exact Option.noConfusion h

theorem run_IdInv (ops : List Op) (s : RotState) (h : IdInv s) :
    IdInv (run s ops).1 := by
  induction ops generalizing s with
  | nil => exact h
  | cons op ops ih =>
    simp only [run]
    exact ih _ (step_IdInv s op h)

theorem run_ids_mono (ops : List Op) (s : RotState) :
    (∀ i ∈ (run s ops).2, s.next_lock_id ≤ i) ∧
    List.Chain' (fun a b => a < b) (run s ops).2 := by
  induction ops generalizing s with
  | nil => exact ⟨fun i hi => absurd hi (List.not_mem_nil i), List.chain'_nil⟩
  | cons op ops ih =>
    simp only [run]
    have ihs := ih (step s op).1
    cases hop : (step s op).2 with
    | none =>
      dsimp only
      have hmono := step_next_mono s op
      exact ⟨fun i hi => le_trans hmono (ihs.1 i hi), ihs.2⟩
    | some j =>
      dsimp only
      obtain ⟨hj, hnext⟩ := step_issued s op j hop
      constructor
      · intro i hi
        rcases List.mem_cons.mp hi with rfl | hi2
        · omega
        · have := ihs.1 i hi2
          omega
      · refine List.chain'_cons'.mpr ⟨fun y hy => ?_, ihs.2⟩
        have hym : y ∈ (run (step s op).1 ops).2 := List.mem_of_mem_head? hy
        have := ihs.1 y hym
        omega

/-- Claim C8: along every interleaved execution from the initial state, the
ids issued by `lock->id = next_lock_id++` are strictly increasing in
issuance order (hence no two acquire calls ever share an id), and in the
resulting state every recorded id (granted or pending) is distinct and below
the id counter — so a released id is never reused and a stale id fails
lookup instead of naming a later lock. -/
theorem lock_ids_unique_monotone (ops : List Op) :
    List.Chain' (fun a b => a < b) (run initState ops).2 ∧
    (allIds (run initState ops).1).Nodup ∧
    ∀ i ∈ allIds (run initState ops).1,
      i < (run initState ops).1.next_lock_id := by
  have h1 := run_ids_mono ops initState
  have h2 := run_IdInv ops initState
    ⟨List.nodup_nil, fun i hi => absurd hi (List.not_mem_nil i)⟩
  exact ⟨h1.2, h2.1, h2.2⟩

/-- A five-phase interleaving exercising grant, suspension and release. -/
def idTrace : List Op :=
  [.lockEnter 0 10 ROT_READ 1, .lockGrant 0, .lockEnter 20 30 ROT_WRITE 2,
   .unlock 0 1, .lockEnter 5 15 ROT_READ 3]

/-- Witness for C8 on the concrete interleaving `idTrace`. -/
theorem lock_ids_unique_monotone_witness :
    List.Chain' (fun a b => a < b) (run initState idTrace).2 ∧
    (allIds (run initState idTrace).1).Nodup ∧
    ∀ i ∈ allIds (run initState idTrace).1,
      i < (run initState idTrace).1.next_lock_id :=
  lock_ids_unique_monotone idTrace

end Rotation
